import Mathlib

set_option linter.all false

/-!
Verification development for the koru-ts simulation core.

The definitions below are shallow embeddings of the TypeScript sources:

* `Vector2`, `Rectangle2D`, `Circle2D`, `Shape2D` — src/core/graphics/shapes2D
  (rectangle file appears in the sources as part of the shapes bundle).
* `MessageBus` — src/core/message/messageBus.ts.
* `CollisionManager` — the CollisionManager/CollisionData classes bundled in
  src/core/graphics/materialManager.ts.
* `CollisionComponentData` — src/core/components/collisionComponent.ts.
* `SimTree` / the object-store model — src/core/world/simObject.ts.
* `ZoneModel` — the Zone class bundled in src/core/world/simObject.ts.

JS numbers are modelled as rationals; every concrete input used below is
exactly representable in binary floating point, so the rational model agrees
with the float evaluation on those inputs. Object reference identity is
modelled by an explicit numeric id field where the source compares objects
with the strict-equality operator. Side effects (callback invocations and
message posts) are modelled as explicit event traces returned next to the
updated state.
-/

/-- Two dimensional vector, modelling the x and y fields of the source
class Vector2. -/
structure Vector2 where
  x : ℚ
  y : ℚ
deriving DecidableEq, Repr

/-- Axis-aligned rectangle, modelling the source class Rectangle2D with its
position, origin, width and height fields. -/
structure Rectangle2D where
  position : Vector2
  origin : Vector2 := ⟨0, 0⟩
  width : ℚ
  height : ℚ
deriving DecidableEq, Repr

/-- Circle, modelling the source class Circle2D with its position, origin and
radius fields. -/
structure Circle2D where
  position : Vector2
  origin : Vector2 := ⟨0, 0⟩
  radius : ℚ
deriving DecidableEq, Repr

/-- Translation of Rectangle2D.pointInShape: normalizes min and max
coordinates for negative dimensions, then tests axis-aligned containment
with inclusive bounds. -/
def Rectangle2D.pointInShape (self : Rectangle2D) (point : Vector2) : Bool :=
  let x := if self.width < 0 then self.position.x - self.width else self.position.x
  let y := if self.height < 0 then self.position.y - self.height else self.position.y
  let extentX :=
    if self.width < 0 then self.position.x else self.position.x + self.width
  let extentY :=
    if self.height < 0 then self.position.y else self.position.y + self.height
  decide (x ≤ point.x ∧ point.x ≤ extentX ∧ y ≤ point.y ∧ point.y ≤ extentY)

/-- Translation of the Rectangle2D branch of Rectangle2D.intersects: tests
whether any of the four corners of the other rectangle lies inside this
rectangle. -/
def Rectangle2D.intersectsRect (self other : Rectangle2D) : Bool :=
  self.pointInShape other.position ||
  self.pointInShape ⟨other.position.x + other.width, other.position.y⟩ ||
  self.pointInShape
    ⟨other.position.x + other.width, other.position.y + other.height⟩ ||
  self.pointInShape ⟨other.position.x, other.position.y + other.height⟩

/-- Translation of the Circle2D branch of Rectangle2D.intersects: clamps the
circle center to the rectangle bounds and compares the squared distance with
the squared radius. -/
def Rectangle2D.intersectsCircle (self : Rectangle2D) (other : Circle2D) : Bool :=
  let closestX :=
    max self.position.x (min other.position.x (self.position.x + self.width))
  let closestY :=
    max self.position.y (min other.position.y (self.position.y + self.height))
  let deltaX := other.position.x - closestX
  let deltaY := other.position.y - closestY
  decide (deltaX * deltaX + deltaY * deltaY < other.radius * other.radius)

/-- Translation of the Circle2D branch of Circle2D.intersects. The source
compares the distance, computed with a square root, against the radius sum;
the square-compare form used here is equal to that test over the reals
(for a nonnegative squared distance d, sqrt d ≤ s holds exactly when
0 ≤ s and d ≤ s * s) and keeps the predicate decidable over ℚ. -/
def Circle2D.intersectsCircle (self other : Circle2D) : Bool :=
  let dx := other.position.x - self.position.x
  let dy := other.position.y - self.position.y
  let radiusLength := self.radius + other.radius
  decide (0 ≤ radiusLength ∧ dx * dx + dy * dy ≤ radiusLength * radiusLength)

/-- Translation of the Rectangle2D branch of Circle2D.intersects: clamps the
circle center to the rectangle bounds and compares the squared distance with
the squared radius. -/
def Circle2D.intersectsRect (self : Circle2D) (other : Rectangle2D) : Bool :=
  let closestX :=
    max other.position.x (min self.position.x (other.position.x + other.width))
  let closestY :=
    max other.position.y (min self.position.y (other.position.y + other.height))
  let deltaX := self.position.x - closestX
  let deltaY := self.position.y - closestY
  decide (deltaX * deltaX + deltaY * deltaY < self.radius * self.radius)

/-- Closed union of the shape variants implementing IShape2D. The source
dispatches with instanceof checks; the union makes that dispatch a match. -/
inductive Shape2D where
  | rect (r : Rectangle2D)
  | circle (c : Circle2D)
deriving DecidableEq, Repr

/-- Polymorphic intersects dispatch, combining Rectangle2D.intersects and
Circle2D.intersects exactly as the instanceof chains in the source do. -/
def Shape2D.intersects : Shape2D → Shape2D → Bool
  | .rect r, .rect r2 => r.intersectsRect r2
  | .rect r, .circle c => r.intersectsCircle c
  | .circle c, .circle c2 => c.intersectsCircle c2
  | .circle c, .rect r => c.intersectsRect r

/-- Message priorities from src/core/message/message.ts. -/
inductive MessagePriority where
  | NORMAL
  | HIGH
deriving DecidableEq, Repr

/-- Identity of an IMessageHandler object (reference identity in JS). -/
abbrev Handler := Nat

/-- Message record from src/core/message/message.ts: a string code, a sender
reference, an optional opaque context and a priority. Sender and context are
opaque payloads and are modelled by numbers. -/
structure Message where
  code : String
  sender : Nat := 0
  context : Option Nat := none
  priority : MessagePriority := MessagePriority.NORMAL
deriving DecidableEq, Repr

/-- Observable bus effect: one invocation of handler.onMessage(message). -/
inductive BusEvent where
  | delivered (message : Message) (handler : Handler)
deriving DecidableEq, Repr

/-- State of the MessageBus singleton: the subscription table (a JS object
mapping codes to handler arrays, modelled as an association list where a
missing key models an undefined entry) and the NORMAL-priority FIFO queue of
MessageSubscriptionNode pairs. -/
structure MessageBusState where
  subscription : List (String × List Handler) := []
  normalMessageQueue : List (Message × Handler) := []
deriving DecidableEq, Repr

namespace MessageBus

/-- Translation of the private constant _normalQueueMessagePerUpdate. -/
def normalQueueMessagePerUpdate : Nat := 10

/-- Reads the handler array stored under a code, none when the key is not
present (the undefined case in the source). -/
def lookupSub (subs : List (String × List Handler)) (code : String) :
    Option (List Handler) :=
  (subs.find? (fun e => e.1 == code)).map (fun e => e.2)

/-- Stores a handler array under a code, replacing an existing entry or
appending a fresh one. -/
def setSub (subs : List (String × List Handler)) (code : String)
    (hs : List Handler) : List (String × List Handler) :=
  match subs with
  | [] => [(code, hs)]
  | e :: rest => if e.1 == code then (code, hs) :: rest else e :: setSub rest code hs

/-- Translation of MessageBus.addSubscription: creates an empty handler array
for an unknown code, then either warns and ignores a duplicate handler or
appends the handler. -/
def addSubscription (s : MessageBusState) (code : String) (handler : Handler) :
    MessageBusState :=
  let subs :=
    if lookupSub s.subscription code = none then setSub s.subscription code []
    else s.subscription
  let cur := (lookupSub subs code).getD []
  if handler ∈ cur then
    { s with subscription := subs }
  else
    { s with subscription := setSub subs code (cur ++ [handler]) }

/-- Translation of MessageBus.post: an unknown code returns silently; each
subscribed handler either receives a HIGH message synchronously or has a
(message, handler) node appended to the NORMAL queue. -/
def post (s : MessageBusState) (message : Message) :
    MessageBusState × List BusEvent :=
  match lookupSub s.subscription message.code with
  | none => (s, [])
  | some handlers =>
      handlers.foldl
        (fun acc h =>
          if message.priority = MessagePriority.HIGH then
            (acc.1, acc.2 ++ [BusEvent.delivered message h])
          else
            ({ acc.1 with
                normalMessageQueue := acc.1.normalMessageQueue ++ [(message, h)] },
             acc.2))
        (s, [])

/-- Translation of the drain loop inside MessageBus.update: shifts the head
node from the queue and invokes its handler, a fixed number of times. -/
def drainLoop : Nat → List (Message × Handler) →
    List (Message × Handler) × List BusEvent
  | 0, q => (q, [])
  | _ + 1, [] => ([], [])
  | n + 1, node :: rest =>
      let r := drainLoop n rest
      (r.1, BusEvent.delivered node.1 node.2 :: r.2)

/-- Translation of MessageBus.update: returns early on an empty queue,
otherwise delivers min(10, queue length) of the oldest queued pairs. The time
argument is accepted and ignored exactly as in the source. -/
def update (s : MessageBusState) (time : ℚ) : MessageBusState × List BusEvent :=
  if s.normalMessageQueue = [] then (s, [])
  else
    let messageLimit := min normalQueueMessagePerUpdate s.normalMessageQueue.length
    let r := drainLoop messageLimit s.normalMessageQueue
    ({ s with normalMessageQueue := r.1 }, r.2)

end MessageBus

/-- Collision component as seen by the CollisionManager: a numeric id
modelling JS object identity (the manager compares components with the
strict-equality operator), the component name used in message codes, and the
static flag. The mutable shape field of the component is supplied to the
manager tick as a separate current-shape assignment, because component update
rewrites the shape position in place before the manager runs. -/
structure CComp where
  id : Nat
  name : String
  static : Bool
deriving DecidableEq, Repr

/-- Translation of the CollisionData record: an ordered pair of components
plus the last-touched timestamp. -/
structure CollisionData where
  time : ℚ
  a : CComp
  b : CComp
deriving DecidableEq, Repr

/-- Observable collision effects of one manager tick: the per-component
lifecycle callbacks and the priority messages sent through
Message.sendPriority (always HIGH). -/
inductive CEvent where
  | entryEv (self other : CComp)
  | updateEv (self other : CComp)
  | exitEv (self other : CComp)
  | postMsg (code : String) (priority : MessagePriority)
deriving DecidableEq, Repr

/-- State of the CollisionManager singleton: the flat component list, the
live pair records and the accumulated simulation clock. -/
structure CollisionManagerState where
  collisionComponents : List CComp := []
  collisionData : List CollisionData := []
  totalTime : ℚ := 0
deriving DecidableEq, Repr

namespace CollisionManager

/-- Translation of CollisionManager.registerCollisionComponent: pushes onto
the flat component list. -/
def registerCollisionComponent (s : CollisionManagerState) (component : CComp) :
    CollisionManagerState :=
  { s with collisionComponents := s.collisionComponents ++ [component] }

/-- Translation of CollisionManager.unRegisterCollisionComponent. The source
looks up the index and, when found, calls Array.prototype.slice(index, 1);
slice returns a fresh array and never mutates the receiver, so the stored
component list is left unchanged in every case and the state is returned
as is. (The mutating removal would be splice.) -/
def unRegisterCollisionComponent (s : CollisionManagerState) (component : CComp) :
    CollisionManagerState :=
  let index := s.collisionComponents.indexOf component
  if index ≠ s.collisionComponents.length then
    -- slice(index, 1) builds and discards a copy; the stored list is unchanged
    s
  else
    s

/-- Condition of the inner existence scan of CollisionManager.update: the
record holds exactly this unordered component pair. -/
def pairMatch (d : CollisionData) (comp other : CComp) : Prop :=
  (d.a = comp ∧ d.b = other) ∨ (d.a = other ∧ d.b = comp)

instance (d : CollisionData) (comp other : CComp) : Decidable (pairMatch d comp other) := by
  unfold pairMatch; infer_instance

/-- Translation of the inner existence scan of CollisionManager.update: walks
the record list looking for the first record holding this unordered pair; on
a hit it rewrites that record timestamp in place and stops, returning the
rewritten list; none models the loop ending without a hit. -/
def touchPair (tt : ℚ) (comp other : CComp) :
    List CollisionData → Option (List CollisionData)
  | [] => none
  | d :: rest =>
      if pairMatch d comp other then
        some ({ d with time := tt } :: rest)
      else
        (touchPair tt comp other rest).map (fun r => d :: r)

/-- Translation of one inner-loop iteration of CollisionManager.update for the
ordered pair (comp, other): skip self pairs and fully static pairs, otherwise
test shape intersection; on a hit either refresh the existing record and fire
the update callbacks, or create a record, fire the entry callbacks and post
the two HIGH-priority entry messages. -/
def innerStep (tt : ℚ) (comp other : CComp) (compShape otherShape : Shape2D)
    (st : List CollisionData × List CEvent) : List CollisionData × List CEvent :=
  if comp = other then st
  else if comp.static && other.static then st
  else if Shape2D.intersects compShape otherShape then
    match touchPair tt comp other st.1 with
    | some cd =>
        (cd, st.2 ++ [CEvent.updateEv comp other, CEvent.updateEv other comp])
    | none =>
        (st.1 ++ [⟨tt, comp, other⟩],
         st.2 ++ [CEvent.entryEv comp other, CEvent.entryEv other comp,
                  CEvent.postMsg ("COLLISION_ENTRY: " ++ comp.name)
                    MessagePriority.HIGH,
                  CEvent.postMsg ("COLLISION_ENTRY: " ++ other.name)
                    MessagePriority.HIGH])
  else st

/-- Translation of the stale-record removal step: the source takes the index
of the record (always found, since removeData holds live references) and
splices it out; removal of the first structurally equal record models removal
of that reference. A missing record would give index -1, and splice(-1, 1)
removes the last element, which the dropLast branch mirrors. -/
def spliceOut (cd : List CollisionData) (data : CollisionData) :
    List CollisionData :=
  if cd.contains data then cd.erase data else cd.dropLast

/-- Translation of CollisionManager.update. The clock accumulates the delta;
the quadratic scan visits every ordered pair of registered components,
threading the record list and the event trace; afterwards every record whose
timestamp was not refreshed to the current clock is removed, firing the exit
callbacks and posting the two HIGH-priority exit messages. The shape
assignment sh supplies the current (mutable) shape of each component. -/
def update (sh : CComp → Shape2D) (s : CollisionManagerState) (time : ℚ) :
    CollisionManagerState × List CEvent :=
  let tt := s.totalTime + time
  let scan :=
    s.collisionComponents.foldl
      (fun st comp =>
        s.collisionComponents.foldl
          (fun st2 other => innerStep tt comp other (sh comp) (sh other) st2)
          st)
      (s.collisionData, [])
  let removeData := scan.1.filter (fun d => d.time ≠ tt)
  let cleanup :=
    removeData.foldl
      (fun st data =>
        (spliceOut st.1 data,
         st.2 ++ [CEvent.exitEv data.a data.b, CEvent.exitEv data.b data.a,
                  CEvent.postMsg ("COLLISION_EXIT: " ++ data.a.name)
                    MessagePriority.HIGH,
                  CEvent.postMsg ("COLLISION_EXIT: " ++ data.b.name)
                    MessagePriority.HIGH]))
      (scan.1, scan.2)
  ({ s with collisionData := cleanup.1, totalTime := tt }, cleanup.2)

/-- Runs a sequence of manager ticks, concatenating the event traces. Each
step carries its own current-shape assignment and time delta. -/
def runUpdates (steps : List ((CComp → Shape2D) × ℚ)) (s : CollisionManagerState) :
    CollisionManagerState × List CEvent :=
  steps.foldl
    (fun acc step =>
      let r := update step.1 acc.1 step.2
      (r.1, acc.2 ++ r.2))
    (s, [])

/-- States of the collision engine reachable by any sequence of register,
unregister and update calls from the pristine singleton state. -/
inductive Reachable : CollisionManagerState → Prop
  | init : Reachable {}
  | register (s : CollisionManagerState) (c : CComp) :
      Reachable s → Reachable (registerCollisionComponent s c)
  | unregister (s : CollisionManagerState) (c : CComp) :
      Reachable s → Reachable (unRegisterCollisionComponent s c)
  | tick (s : CollisionManagerState) (sh : CComp → Shape2D) (t : ℚ) :
      Reachable s → Reachable (update sh s t).1

end CollisionManager

/-- Unordered-pair sameness of two collision records, ignoring timestamps. -/
def samePair (d1 d2 : CollisionData) : Prop :=
  CollisionManager.pairMatch d1 d2.a d2.b

instance (d1 d2 : CollisionData) : Decidable (samePair d1 d2) := by
  unfold samePair; infer_instance

/-- A record list holds at most one record per unordered component pair. -/
def PairUnique (cd : List CollisionData) : Prop :=
  cd.Pairwise (fun x y => ¬ samePair x y)

instance (cd : List CollisionData) : Decidable (PairUnique cd) := by
  unfold PairUnique; infer_instance

/-- There is a record for the unordered pair (a, b) in the list. -/
def hasPair (cd : List CollisionData) (a b : CComp) : Prop :=
  ∃ d ∈ cd, CollisionManager.pairMatch d a b

instance (cd : List CollisionData) (a b : CComp) : Decidable (hasPair cd a b) := by
  unfold hasPair; infer_instance

/-- The event is an entry, update or exit callback between a and b. -/
def touchesPair (e : CEvent) (a b : CComp) : Prop :=
  match e with
  | CEvent.entryEv x y => (x = a ∧ y = b) ∨ (x = b ∧ y = a)
  | CEvent.updateEv x y => (x = a ∧ y = b) ∨ (x = b ∧ y = a)
  | CEvent.exitEv x y => (x = a ∧ y = b) ∨ (x = b ∧ y = a)
  | CEvent.postMsg _ _ => False

instance (e : CEvent) (a b : CComp) : Decidable (touchesPair e a b) := by
  unfold touchesPair; cases e <;> infer_instance

/-- JSON fields read by the shape setFromJson methods, each optional to model
presence or absence of the key. -/
structure ShapeJson where
  type : Option String := none
  position : Option Vector2 := none
  origin : Option Vector2 := none
  width : Option ℚ := none
  height : Option ℚ := none
  radius : Option ℚ := none
deriving DecidableEq, Repr

/-- JSON fields read by CollisionComponentData.setFromJson. -/
structure CollisionJson where
  name : Option String := none
  static : Option Bool := none
  shape : Option ShapeJson := none
deriving DecidableEq, Repr

/-- Translation of Rectangle2D.setFromJson: position and origin are optional
(a fresh rectangle starts at zero), width and height are required and missing
ones throw. -/
def Rectangle2D.setFromJson (json : ShapeJson) : Except String Rectangle2D :=
  let position := json.position.getD ⟨0, 0⟩
  let origin := json.origin.getD ⟨0, 0⟩
  match json.width with
  | none => Except.error "Rectangle2D requires width to be present."
  | some w =>
      match json.height with
      | none => Except.error "Rectangle2D requires height to be present."
      | some h =>
          Except.ok { position := position, origin := origin, width := w, height := h }

/-- Translation of Circle2D.setFromJson: position and origin are optional,
radius is required. -/
def Circle2D.setFromJson (json : ShapeJson) : Except String Circle2D :=
  let position := json.position.getD ⟨0, 0⟩
  let origin := json.origin.getD ⟨0, 0⟩
  match json.radius with
  | none => Except.error "Circle2D requires radius to be present."
  | some r =>
      Except.ok { position := position, origin := origin, radius := r }

/-- Model of String.prototype.toLowerCase as used on the shape type tag: the
character-wise lowercase map. (The built-in String.toLower is implemented
behind an external function and does not reduce in the kernel; this map is
the same function on the inputs the engine handles.) -/
def jsToLowerCase (s : String) : String := ⟨s.data.map Char.toLower⟩

/-- Configuration data of a collision component. The static field carries the
field initializer value true; name mirrors the definite-assignment string
field that stays undefined when the JSON omits it. -/
structure CollisionComponentData where
  name : Option String := none
  shape : Shape2D
  static : Bool := true
deriving DecidableEq, Repr

/-- Translation of CollisionComponentData.setFromJson: name and static are
copied when present (static keeps its initializer true otherwise), shape and
shape.type are required, the lowercased type tag selects the shape variant
and the shape parses its own fields. -/
def CollisionComponentData.setFromJson (json : CollisionJson) :
    Except String CollisionComponentData :=
  let name : Option String := json.name
  let staticFlag : Bool :=
    match json.static with
    | some b => b
    | none => true
  match json.shape with
  | none => Except.error "ERROR: CollisionComponentData requires shape to be present"
  | some shapeJson =>
      match shapeJson.type with
      | none =>
          Except.error "ERROR: CollisionComponentData requires shape.type to be present"
      | some ty =>
          let shapeType := jsToLowerCase ty
          if shapeType = "rectangle" then
            (Rectangle2D.setFromJson shapeJson).map
              (fun r => { name := name, shape := Shape2D.rect r, static := staticFlag })
          else if shapeType = "circle" then
            (Circle2D.setFromJson shapeJson).map
              (fun c => { name := name, shape := Shape2D.circle c, static := staticFlag })
          else
            Except.error ("ERROR: Unsupported shape.type " ++ shapeType)

/-- Constructor of CollisionComponent as the manager sees it: the component
copies name and static flag from its data record and owns the data shape.
The id models the identity of the freshly constructed object; a JS name left
undefined turns into the string undefined when concatenated into message
codes, which getD mirrors. -/
def mkCollisionComponent (id : Nat) (data : CollisionComponentData) :
    CComp × Shape2D :=
  ({ id := id, name := data.name.getD "undefined", static := data.static },
   data.shape)

/-- Scene-node tree skeleton for the name search: the display name plus the
ordered child list (the other SimObject fields play no role in
getObjectByName). -/
inductive SimTree where
  | node (name : String) (children : List SimTree)

/-- Display name of the node. -/
def SimTree.name : SimTree → String
  | .node n _ => n

/-- Ordered children of the node. -/
def SimTree.children : SimTree → List SimTree
  | .node _ c => c

/-- Translation of SimObject.getObjectByName: return self on a name match;
otherwise the for loop body returns on its first iteration (either the
recursive result of the first child or undefined), so later siblings are
never inspected; with no children control falls off the end, which is
undefined. -/
def SimTree.getObjectByName : SimTree → String → Option SimTree
  | SimTree.node nm ch, name =>
      if nm = name then some (SimTree.node nm ch)
      else
        match ch with
        | [] => none
        | c :: _ => c.getObjectByName name

mutual

/-- Whole-subtree reference search used only to state that a node with the
searched name exists somewhere in the tree (the full depth-first search the
spec describes). -/
def SimTree.containsName : SimTree → String → Bool
  | SimTree.node nm ch, name => (nm == name) || SimTree.containsNameList ch name

/-- Helper of containsName over child lists. -/
def SimTree.containsNameList : List SimTree → String → Bool
  | [], _ => false
  | c :: rest, name =>
      SimTree.containsName c name || SimTree.containsNameList rest name

end

/-- Record of one SimObject in the object store: id, display name, the
non-owning parent back-reference (none before attachment) and the ordered
children list, both links by object id. -/
structure SimObjectRec where
  id : Nat
  name : String := ""
  parent : Option Nat := none
  children : List Nat := []
deriving DecidableEq, Repr

/-- Object store addressing the live SimObjects by id; this models the JS
heap fragment holding the nodes, so that the mutable parent back-reference
can be represented. -/
abbrev ObjectStore := List SimObjectRec

namespace SimObjectModel

/-- Reads a node from the store. -/
def lookupNode (store : ObjectStore) (id : Nat) : Option SimObjectRec :=
  store.find? (fun n => n.id == id)

/-- Rewrites the node with the given id in place. -/
def mapNode (store : ObjectStore) (id : Nat) (f : SimObjectRec → SimObjectRec) :
    ObjectStore :=
  store.map (fun n => if n.id = id then f n else n)

/-- Translation of SimObject.addChild: sets the child parent back-reference
to this node, then pushes the child onto the children list. (The onAdded
scene notification touches neither parent nor children and is omitted.) -/
def addChild (store : ObjectStore) (self child : Nat) : ObjectStore :=
  let store1 := mapNode store child (fun n => { n with parent := some self })
  mapNode store1 self (fun n => { n with children := n.children ++ [child] })

/-- Translation of SimObject.removeChild: when indexOf finds the child, the
children array is spliced at that index; nothing else is written — in
particular the parent back-reference of the removed child stays as it was,
although the method doc comment says the parent reference is cleaned up. -/
def removeChild (store : ObjectStore) (self child : Nat) : ObjectStore :=
  mapNode store self (fun n =>
    let index := n.children.indexOf child
    if index ≠ n.children.length then
      { n with children := n.children.eraseIdx index }
    else n)

end SimObjectModel

/-- Zone lifecycle states from the source enum. -/
inductive ZoneState where
  | UNINITIALIZED
  | LOADING
  | UPDATING
deriving DecidableEq, Repr

/-- Zone over an abstract scene implementation S. The Zone source drives its
owned Scene purely through load, updateReady, update and render, so those
scene operations are parameters of the model; this keeps every Zone fact
below true for any scene implementation. -/
structure Zone (S : Type) where
  id : Nat
  name : String
  description : String
  scene : S
  state : ZoneState := ZoneState.UNINITIALIZED
deriving DecidableEq, Repr

namespace ZoneModel

/-- Translation of the Zone constructor: stores the metadata, owns a freshly
allocated Scene (abstract newScene) and starts UNINITIALIZED. -/
def mkZone {S : Type} (newScene : S) (id : Nat) (name description : String) :
    Zone S :=
  { id := id, name := name, description := description, scene := newScene }

/-- Translation of Zone.load: the state moves to LOADING, the scene loads,
the scene root receives updateReady, then the state moves to UPDATING. -/
def load {S : Type} (sceneLoad : S → S) (rootUpdateReady : S → S) (z : Zone S) :
    Zone S :=
  let z1 := { z with state := ZoneState.LOADING }
  let z2 := { z1 with scene := sceneLoad z1.scene }
  let z3 := { z2 with scene := rootUpdateReady z2.scene }
  { z3 with state := ZoneState.UPDATING }

/-- Translation of Zone.update: dispatches to Scene.update only in the
UPDATING state, otherwise leaves the zone untouched with no effects. E is
the type of observable scene effects (node, component or behaviour updates
and renders). -/
def update {S E : Type} (sceneUpdate : S → ℚ → S × List E) (z : Zone S)
    (time : ℚ) : Zone S × List E :=
  if z.state = ZoneState.UPDATING then
    let r := sceneUpdate z.scene time
    ({ z with scene := r.1 }, r.2)
  else (z, [])

/-- Translation of Zone.render: dispatches to Scene.render only in the
UPDATING state; the shader surface is abstract and passed through. -/
def render {S E Sh : Type} (sceneRender : S → Sh → S × List E) (z : Zone S)
    (shader : Sh) : Zone S × List E :=
  if z.state = ZoneState.UPDATING then
    let r := sceneRender z.scene shader
    ({ z with scene := r.1 }, r.2)
  else (z, [])

end ZoneModel

/-- Sample dynamic collision component used by concrete witnesses. -/
def sampleA : CComp := { id := 0, name := "A", static := false }

/-- Second sample dynamic collision component. -/
def sampleB : CComp := { id := 1, name := "B", static := false }

/-- Shape assignment with the two sample components far apart. -/
def shapesApart : CComp → Shape2D := fun c =>
  if c.id = 0 then Shape2D.rect { position := ⟨0, 0⟩, width := 2, height := 2 }
  else Shape2D.rect { position := ⟨100, 0⟩, width := 2, height := 2 }

/-- Shape assignment with the two sample components overlapping. -/
def shapesOverlap : CComp → Shape2D := fun c =>
  if c.id = 0 then Shape2D.rect { position := ⟨0, 0⟩, width := 2, height := 2 }
  else Shape2D.rect { position := ⟨1, 1⟩, width := 2, height := 2 }

/-- C7: for the receiver rectangle [2,3] x [2,3] and the argument rectangle
[0,10] x [0,10] the overlap region is the whole receiver, with positive
area; the argument fully encloses the receiver, so every receiver corner
lies in the argument while no corner of the argument lies inside the
receiver; and Rectangle2D.intersects on the receiver returns false — the
corner test does not detect full containment with zero corner overlap. -/
theorem c7_rect_containment_missed :
    let self : Rectangle2D := { position := ⟨2, 2⟩, width := 1, height := 1 }
    let other : Rectangle2D := { position := ⟨0, 0⟩, width := 10, height := 10 }
    (0 < self.width ∧ 0 < self.height ∧ 0 < other.width ∧ 0 < other.height ∧
     self.position.x < other.position.x + other.width ∧
     other.position.x < self.position.x + self.width ∧
     self.position.y < other.position.y + other.height ∧
     other.position.y < self.position.y + self.height) ∧
    (other.pointInShape ⟨2, 2⟩ = true ∧ other.pointInShape ⟨3, 2⟩ = true ∧
     other.pointInShape ⟨3, 3⟩ = true ∧ other.pointInShape ⟨2, 3⟩ = true) ∧
    (self.pointInShape other.position = false ∧
     self.pointInShape ⟨10, 0⟩ = false ∧
     self.pointInShape ⟨10, 10⟩ = false ∧
     self.pointInShape ⟨0, 10⟩ = false) ∧
    Shape2D.intersects (Shape2D.rect self) (Shape2D.rect other) = false := by
  norm_num [Shape2D.intersects, Rectangle2D.intersectsRect, Rectangle2D.pointInShape]

/-- C3: evaluation at the failing input. After register(sampleA),
register(sampleB), unRegister(sampleA), the component list still holds
sampleA — the source calls slice, which does not mutate — and the following
update still runs the intersection test involving sampleA and fires its
entry events. -/
theorem c3_unregister_leaves_component_registered :
    let s0 : CollisionManagerState :=
      { collisionComponents := [], collisionData := [], totalTime := 0 }
    let s1 := CollisionManager.registerCollisionComponent s0 sampleA
    let s2 := CollisionManager.registerCollisionComponent s1 sampleB
    let s3 := CollisionManager.unRegisterCollisionComponent s2 sampleA
    s3.collisionComponents = [sampleA, sampleB] ∧
    (CollisionManager.update shapesOverlap s3 1).2.count
        (CEvent.entryEv sampleA sampleB) = 1 := by
  refine ⟨by decide, ?_⟩
  norm_num [CollisionManager.update, CollisionManager.registerCollisionComponent,
    CollisionManager.unRegisterCollisionComponent, CollisionManager.innerStep,
    CollisionManager.touchPair, CollisionManager.pairMatch, CollisionManager.spliceOut,
    shapesOverlap, sampleA, sampleB, Shape2D.intersects, Rectangle2D.intersectsRect,
    Rectangle2D.pointInShape, List.count_cons]
  simp

/-- C4: evaluation at the failing input. addChild establishes the parent
back-reference; removeChild removes the child from the children list but
leaves the stale parent back-reference in place (the claim and the method
doc comment say it is cleared). -/
theorem c4_removeChild_keeps_parent_reference :
    let store0 : ObjectStore := [{ id := 0, name := "parent" }, { id := 1, name := "child" }]
    let store1 := SimObjectModel.addChild store0 0 1
    let store2 := SimObjectModel.removeChild store1 0 1
    (SimObjectModel.lookupNode store1 1).map SimObjectRec.parent = some (some 0) ∧
    (SimObjectModel.lookupNode store1 0).map SimObjectRec.children = some [1] ∧
    (SimObjectModel.lookupNode store2 0).map SimObjectRec.children = some [] ∧
    (SimObjectModel.lookupNode store2 1).map SimObjectRec.parent = some (some 0) := by
  decide

/-- C8: a freshly constructed Zone is UNINITIALIZED; update and render on an
UNINITIALIZED zone return the zone unchanged with no scene effects; load
moves the state to UPDATING, after which update and render dispatch to the
scene operations on the loaded scene. Holds for every scene implementation
(the Zone source drives its Scene only through these operations). -/
theorem c8_zone_state_machine {S E Sh : Type}
    (sceneLoad rootUpdateReady : S → S)
    (sceneUpdate : S → ℚ → S × List E) (sceneRender : S → Sh → S × List E)
    (newScene : S) (zid : Nat) (zname zdescription : String)
    (z : Zone S) (hz : z.state = ZoneState.UNINITIALIZED) (t : ℚ) (shader : Sh) :
    (ZoneModel.mkZone newScene zid zname zdescription).state = ZoneState.UNINITIALIZED ∧
    ZoneModel.update sceneUpdate z t = (z, []) ∧
    ZoneModel.render sceneRender z shader = (z, []) ∧
    (ZoneModel.load sceneLoad rootUpdateReady z).state = ZoneState.UPDATING ∧
    (ZoneModel.update sceneUpdate (ZoneModel.load sceneLoad rootUpdateReady z) t).2 =
      (sceneUpdate (rootUpdateReady (sceneLoad z.scene)) t).2 ∧
    (ZoneModel.render sceneRender (ZoneModel.load sceneLoad rootUpdateReady z) shader).2 =
      (sceneRender (rootUpdateReady (sceneLoad z.scene)) shader).2 := by
  refine ⟨rfl, ?_, ?_, rfl, ?_, ?_⟩ <;>
    simp [ZoneModel.update, ZoneModel.render, ZoneModel.load, ZoneModel.mkZone, hz]

/-- Witness for C8 at a concrete zone: the trivial scene implementation on
Unit, zone id 1. Update before load is a no-op and load reaches UPDATING. -/
theorem c8_zone_state_machine_witness :
    ZoneModel.update (fun (s : Unit) (_ : ℚ) => (s, ([] : List Unit)))
        (ZoneModel.mkZone () 1 "zone" "demo") 1 =
      (ZoneModel.mkZone () 1 "zone" "demo", []) ∧
    (ZoneModel.load (fun (s : Unit) => s) (fun (s : Unit) => s)
        (ZoneModel.mkZone () 1 "zone" "demo")).state = ZoneState.UPDATING :=
  ⟨(c8_zone_state_machine (fun (s : Unit) => s) (fun s => s)
      (fun s _ => (s, ([] : List Unit))) (fun s (_ : Unit) => (s, ([] : List Unit)))
      () 1 "zone" "demo" (ZoneModel.mkZone () 1 "zone" "demo") rfl 1 ()).2.1,
   (c8_zone_state_machine (fun (s : Unit) => s) (fun s => s)
      (fun s _ => (s, ([] : List Unit))) (fun s (_ : Unit) => (s, ([] : List Unit)))
      () 1 "zone" "demo" (ZoneModel.mkZone () 1 "zone" "demo") rfl 1 ()).2.2.2.1⟩

/-- A subtree that nowhere carries the searched name can never produce a hit
from getObjectByName. -/
theorem SimTree.getObjectByName_eq_none_of_containsName_false :
    ∀ (t : SimTree) (n : String), t.containsName n = false →
      t.getObjectByName n = none
  | SimTree.node nm ch, n, h => by
    rw [SimTree.containsName, Bool.or_eq_false_iff] at h
    obtain ⟨h1, h2⟩ := h
    rw [SimTree.getObjectByName.eq_def]
    simp only
    rw [if_neg (by simpa using h1)]
    cases ch with
    | nil => rfl
    | cons c rest =>
        rw [SimTree.containsNameList, Bool.or_eq_false_iff] at h2
        exact SimTree.getObjectByName_eq_none_of_containsName_false c n h2.1

/-- C5: getObjectByName returns the node itself on a self name match;
otherwise it descends only into the first child branch (the loop returns on
its first iteration); consequently, whenever the searched name occurs in the
tree but neither at the root nor anywhere inside the first child subtree —
that is, the only matching nodes lie in sibling branches other than the
first — the lookup returns none although a matching node exists. -/
theorem c5_getObjectByName_first_branch_only (t : SimTree) (n : String) :
    (t.name = n → t.getObjectByName n = some t) ∧
    (∀ c rest, t.children = c :: rest → t.name ≠ n →
        t.getObjectByName n = c.getObjectByName n) ∧
    (t.name ≠ n →
      (∀ c, t.children.head? = some c → c.containsName n = false) →
      t.containsName n = true →
      t.getObjectByName n = none) := by
  obtain ⟨nm, ch⟩ := t
  refine ⟨?_, ?_, ?_⟩
  · intro h
    simp only [SimTree.name] at h
    rw [SimTree.getObjectByName.eq_def]
    simp only
    rw [if_pos h]
  · intro c rest hch hne
    simp only [SimTree.children] at hch
    simp only [SimTree.name] at hne
    rw [SimTree.getObjectByName.eq_def]
    simp only
    rw [if_neg hne, hch]
  · intro hne hfirst hcontains
    simp only [SimTree.name] at hne
    cases ch with
    | nil =>
        rw [SimTree.containsName, SimTree.containsNameList] at hcontains
        simp [hne] at hcontains
    | cons c rest =>
        rw [SimTree.getObjectByName.eq_def]
        simp only
        rw [if_neg hne]
        exact SimTree.getObjectByName_eq_none_of_containsName_false c n
          (hfirst c rfl)

/-- Witness for C5: in the tree root [left, target] the name target exists
(in the second sibling branch) but the lookup returns none. -/
theorem c5_getObjectByName_first_branch_only_witness :
    SimTree.containsName
        (SimTree.node "root" [SimTree.node "left" [], SimTree.node "target" []])
        "target" = true ∧
    SimTree.getObjectByName
        (SimTree.node "root" [SimTree.node "left" [], SimTree.node "target" []])
        "target" = none := by
  constructor
  · rfl
  · apply (c5_getObjectByName_first_branch_only
        (SimTree.node "root" [SimTree.node "left" [], SimTree.node "target" []])
        "target").2.2
    · intro h
      simp [SimTree.name] at h
    · intro c hc
      simp only [SimTree.children, List.head?] at hc
      cases hc
      rfl
    · rfl

/-- The drain loop removes the first n queued pairs and delivers them in
queue order. -/
theorem MessageBus.drainLoop_eq (n : Nat) (q : List (Message × Handler)) :
    MessageBus.drainLoop n q =
      (q.drop n, (q.take n).map (fun p => BusEvent.delivered p.1 p.2)) := by
  induction n generalizing q with
  | zero => simp [MessageBus.drainLoop]
  | succ n ih =>
      cases q with
      | nil => simp [MessageBus.drainLoop]
      | cons node rest => simp [MessageBus.drainLoop, ih]

/-- C6: every MessageBus.update call delivers exactly the first
min(10, queue length) queued (message, handler) pairs, in FIFO order, leaves
the rest queued and the subscription table untouched; and in the concrete
scenario — 25 NORMAL messages posted to one subscriber of code EVT, then
three drains — the drains deliver 10, 10 and 5 messages, strictly in post
order, emptying the queue. -/
theorem c6_update_drains_bounded_fifo :
    (∀ (s : MessageBusState) (time : ℚ),
      (MessageBus.update s time).2 =
        (s.normalMessageQueue.take (min 10 s.normalMessageQueue.length)).map
          (fun p => BusEvent.delivered p.1 p.2) ∧
      (MessageBus.update s time).1.normalMessageQueue =
        s.normalMessageQueue.drop (min 10 s.normalMessageQueue.length) ∧
      (MessageBus.update s time).1.subscription = s.subscription) ∧
    (let s1 := MessageBus.addSubscription {} "EVT" 7
     let msgs : List Message :=
       (List.range 25).map (fun i => { code := "EVT", context := some i })
     let s2 := msgs.foldl (fun s m => (MessageBus.post s m).1) s1
     let u1 := MessageBus.update s2 1
     let u2 := MessageBus.update u1.1 1
     let u3 := MessageBus.update u2.1 1
     u1.2.length = 10 ∧ u2.2.length = 10 ∧ u3.2.length = 5 ∧
     u1.2 ++ u2.2 ++ u3.2 = msgs.map (fun m => BusEvent.delivered m 7) ∧
     u3.1.normalMessageQueue = []) := by
  constructor
  · intro s time
    unfold MessageBus.update
    split
    · next hq => simp [hq]
    · next hq =>
        simp [MessageBus.drainLoop_eq, MessageBus.normalQueueMessagePerUpdate]
  · decide

/-- Writing a handler list under a code makes the following lookup of that
code return exactly that list. -/
theorem MessageBus.lookupSub_setSub_self (subs : List (String × List Handler))
    (code : String) (hs : List Handler) :
    MessageBus.lookupSub (MessageBus.setSub subs code hs) code = some hs := by
  induction subs with
  | nil => simp [MessageBus.setSub, MessageBus.lookupSub]
  | cons e rest ih =>
      by_cases he : e.1 = code
      · simp [MessageBus.setSub, MessageBus.lookupSub, he]
      · have he2 : (e.1 == code) = false := by simpa using he
        simp only [MessageBus.setSub, he2, Bool.false_eq_true, if_false]
        unfold MessageBus.lookupSub
        rw [List.find?_cons_of_neg _ (by simp [he2])]
        exact ih

/-- addSubscription leaves the NORMAL queue untouched. -/
theorem MessageBus.addSubscription_queue (s : MessageBusState) (code : String)
    (handler : Handler) :
    (MessageBus.addSubscription s code handler).normalMessageQueue =
      s.normalMessageQueue := by
  unfold MessageBus.addSubscription
  split <;> (dsimp only; split <;> rfl)

/-- A first subscription of a handler not yet stored under the code appends
it to the handler list of that code. -/
theorem MessageBus.lookupSub_addSubscription_of_not_mem (s : MessageBusState)
    (code : String) (handler : Handler)
    (hnot : handler ∉ (MessageBus.lookupSub s.subscription code).getD []) :
    MessageBus.lookupSub (MessageBus.addSubscription s code handler).subscription
        code =
      some ((MessageBus.lookupSub s.subscription code).getD [] ++ [handler]) := by
  unfold MessageBus.addSubscription
  cases hl : MessageBus.lookupSub s.subscription code with
  | none => simp [hl, MessageBus.lookupSub_setSub_self]
  | some l =>
      rw [hl] at hnot
      simp only [Option.getD_some] at hnot
      simp [hl, hnot, MessageBus.lookupSub_setSub_self]

/-- Subscribing a handler already stored under the code warns and changes
nothing. -/
theorem MessageBus.addSubscription_of_mem (s : MessageBusState) (code : String)
    (handler : Handler)
    (hmem : handler ∈ (MessageBus.lookupSub s.subscription code).getD []) :
    MessageBus.addSubscription s code handler = s := by
  unfold MessageBus.addSubscription
  cases hl : MessageBus.lookupSub s.subscription code with
  | none => rw [hl] at hmem; simp at hmem
  | some l =>
      rw [hl] at hmem
      simp only [Option.getD_some] at hmem
      simp [hl, hmem]

/-- A HIGH-priority post delivers the message synchronously to each handler
subscribed to the code, in subscription order, and leaves the state as is. -/
theorem MessageBus.post_high (s : MessageBusState) (message : Message)
    (l : List Handler)
    (hl : MessageBus.lookupSub s.subscription message.code = some l)
    (hp : message.priority = MessagePriority.HIGH) :
    MessageBus.post s message =
      (s, l.map (fun h => BusEvent.delivered message h)) := by
  unfold MessageBus.post
  rw [hl]
  simp only [hp, if_pos rfl]
  suffices hgen : ∀ (l : List Handler) (tr : List BusEvent),
      l.foldl (fun acc h => (acc.1, acc.2 ++ [BusEvent.delivered message h]))
          (s, tr) =
        (s, tr ++ l.map (fun h => BusEvent.delivered message h)) by
    simpa using hgen l []
  intro l
  induction l with
  | nil => simp
  | cons h rest ih => intro tr; simp [ih]

/-- A NORMAL-priority post appends one (message, handler) node per subscribed
handler to the queue, in subscription order, delivering nothing yet. -/
theorem MessageBus.post_normal (s : MessageBusState) (message : Message)
    (l : List Handler)
    (hl : MessageBus.lookupSub s.subscription message.code = some l)
    (hp : message.priority = MessagePriority.NORMAL) :
    MessageBus.post s message =
      ({ s with normalMessageQueue :=
          s.normalMessageQueue ++ l.map (fun h => (message, h)) }, []) := by
  unfold MessageBus.post
  rw [hl]
  simp only [hp]
  suffices hgen : ∀ (l : List Handler) (s1 : MessageBusState) (tr : List BusEvent),
      l.foldl
          (fun acc h =>
            ({ acc.1 with normalMessageQueue :=
                acc.1.normalMessageQueue ++ [(message, h)] }, acc.2))
          (s1, tr) =
        ({ s1 with normalMessageQueue :=
            s1.normalMessageQueue ++ l.map (fun h => (message, h)) }, tr) by
    simpa using hgen l s []
  intro l
  induction l with
  | nil => intro s1 tr; simp
  | cons h rest ih =>
      intro s1 tr
      simp only [List.foldl_cons, List.map_cons, ih]
      simp [List.append_assoc]

/-- Counting one handler among the synchronous deliveries of a fixed message
counts its occurrences in the handler list. -/
theorem count_map_delivered (message : Message) (handler : Handler) :
    ∀ l : List Handler,
      (l.map (fun h => BusEvent.delivered message h)).count
          (BusEvent.delivered message handler) = l.count handler
  | [] => by simp
  | h :: rest => by
      simp only [List.map_cons, List.count_cons,
        count_map_delivered message handler rest]
      congr 1
      by_cases hh : h = handler
      · simp [hh]
      · simp [hh, BusEvent.delivered.injEq]

/-- Counting one handler among the queue nodes of a fixed message counts its
occurrences in the handler list. -/
theorem count_map_queued (message : Message) (handler : Handler) :
    ∀ l : List Handler,
      (l.map (fun h => ((message, h) : Message × Handler))).count
          (message, handler) = l.count handler
  | [] => by simp
  | h :: rest => by
      simp only [List.map_cons, List.count_cons,
        count_map_queued message handler rest]
      congr 1
      by_cases hh : h = handler
      · simp [hh]
      · simp [hh]

/-- C9: subscribing the same handler to the same code twice (the handler not
being subscribed before) stores the handler exactly once: the duplicate is
ignored without error. Consequently one post of a message with that code
invokes the handler exactly once — a HIGH post delivers to it exactly once
synchronously, and a NORMAL post enqueues exactly one node for it. -/
theorem c9_duplicate_subscription_single_delivery (s : MessageBusState)
    (code : String) (handler : Handler)
    (hnot : handler ∉ (MessageBus.lookupSub s.subscription code).getD []) :
    ((MessageBus.lookupSub
        (MessageBus.addSubscription (MessageBus.addSubscription s code handler)
          code handler).subscription code).getD []).count handler = 1 ∧
    (∀ message : Message, message.code = code →
      message.priority = MessagePriority.HIGH →
      (MessageBus.post
          (MessageBus.addSubscription (MessageBus.addSubscription s code handler)
            code handler) message).2.count
        (BusEvent.delivered message handler) = 1) ∧
    (∀ message : Message, message.code = code →
      message.priority = MessagePriority.NORMAL →
      (MessageBus.post
          (MessageBus.addSubscription (MessageBus.addSubscription s code handler)
            code handler) message).1.normalMessageQueue.count (message, handler) =
        (MessageBus.addSubscription (MessageBus.addSubscription s code handler)
          code handler).normalMessageQueue.count (message, handler) + 1) := by
  have h1 := MessageBus.lookupSub_addSubscription_of_not_mem s code handler hnot
  have h2 : MessageBus.addSubscription (MessageBus.addSubscription s code handler)
      code handler = MessageBus.addSubscription s code handler := by
    apply MessageBus.addSubscription_of_mem
    rw [h1]
    simp
  have hcount :
      ((MessageBus.lookupSub s.subscription code).getD [] ++ [handler]).count
        handler = 1 := by
    rw [List.count_append, List.count_eq_zero.mpr hnot]
    simp
  refine ⟨?_, ?_, ?_⟩
  · rw [h2, h1]
    simpa using hcount
  · intro message hcode hp
    rw [h2]
    rw [MessageBus.post_high _ message _ (by rw [hcode]; exact h1) hp]
    simp only
    rw [count_map_delivered, hcount]
  · intro message hcode hp
    rw [h2]
    rw [MessageBus.post_normal _ message _ (by rw [hcode]; exact h1) hp]
    simp only
    rw [List.count_append, count_map_queued, hcount]

/-- Witness for C9: from the empty bus, subscribing handler 3 to code C
twice stores it once and one HIGH post of code C delivers exactly once. -/
theorem c9_duplicate_subscription_single_delivery_witness :
    ((MessageBus.lookupSub
        (MessageBus.addSubscription (MessageBus.addSubscription {} "C" 3)
          "C" 3).subscription "C").getD []).count 3 = 1 ∧
    (MessageBus.post
        (MessageBus.addSubscription (MessageBus.addSubscription {} "C" 3) "C" 3)
        { code := "C", priority := MessagePriority.HIGH }).2.count
      (BusEvent.delivered { code := "C", priority := MessagePriority.HIGH } 3) = 1 := by
  have h := c9_duplicate_subscription_single_delivery {} "C" 3 (by decide)
  exact ⟨h.1, h.2.1 { code := "C", priority := MessagePriority.HIGH } rfl rfl⟩

/-- One manager tick for exactly the registered pair [a, b], not both static,
shapes not intersecting, no live record: only the clock advances and no
events fire. -/
theorem update_two_apart (a b : CComp) (sh : CComp → Shape2D) (t d : ℚ)
    (hab : a ≠ b)
    (hstat : (a.static && b.static) = false)
    (hia : Shape2D.intersects (sh a) (sh b) = false)
    (hib : Shape2D.intersects (sh b) (sh a) = false) :
    CollisionManager.update sh
        { collisionComponents := [a, b], collisionData := [], totalTime := t } d =
      ({ collisionComponents := [a, b], collisionData := [], totalTime := t + d },
       []) := by
  have hstat2 : (b.static && a.static) = false := by rw [Bool.and_comm]; exact hstat
  have hba : b ≠ a := hab.symm
  simp [CollisionManager.update, CollisionManager.innerStep, hab, hba, hstat, hstat2,
    hia, hib]

/-- One manager tick for the pair [a, b] with intersecting shapes and no live
record: the (a, b) visit creates the record and fires one entry callback per
component plus the two HIGH entry messages; the reverse (b, a) visit finds
the fresh record and fires update callbacks. -/
theorem update_two_entry (a b : CComp) (sh : CComp → Shape2D) (t d : ℚ)
    (hab : a ≠ b)
    (hstat : (a.static && b.static) = false)
    (hia : Shape2D.intersects (sh a) (sh b) = true)
    (hib : Shape2D.intersects (sh b) (sh a) = true) :
    CollisionManager.update sh
        { collisionComponents := [a, b], collisionData := [], totalTime := t } d =
      ({ collisionComponents := [a, b], collisionData := [⟨t + d, a, b⟩],
         totalTime := t + d },
       [CEvent.entryEv a b, CEvent.entryEv b a,
        CEvent.postMsg ("COLLISION_ENTRY: " ++ a.name) MessagePriority.HIGH,
        CEvent.postMsg ("COLLISION_ENTRY: " ++ b.name) MessagePriority.HIGH,
        CEvent.updateEv b a, CEvent.updateEv a b]) := by
  have hstat2 : (b.static && a.static) = false := by rw [Bool.and_comm]; exact hstat
  have hba : b ≠ a := hab.symm
  have hstatP : ¬(a.static = true ∧ b.static = true) := by
    intro hcon
    rw [hcon.1, hcon.2] at hstat
    simp at hstat
  have hstatP2 : ¬(b.static = true ∧ a.static = true) := fun h => hstatP ⟨h.2, h.1⟩
  simp [CollisionManager.update, CollisionManager.innerStep, CollisionManager.touchPair,
    CollisionManager.pairMatch, hab, hba, hstat, hstat2, hstatP, hstatP2, hia, hib]

/-- One manager tick for the pair [a, b] with intersecting shapes and a live
record: both visits fire update callbacks, the record timestamp is refreshed,
and no entry fires. -/
theorem update_two_continue (a b : CComp) (sh : CComp → Shape2D) (t t2 d : ℚ)
    (hab : a ≠ b)
    (hstat : (a.static && b.static) = false)
    (hia : Shape2D.intersects (sh a) (sh b) = true)
    (hib : Shape2D.intersects (sh b) (sh a) = true) :
    CollisionManager.update sh
        { collisionComponents := [a, b], collisionData := [⟨t2, a, b⟩],
          totalTime := t } d =
      ({ collisionComponents := [a, b], collisionData := [⟨t + d, a, b⟩],
         totalTime := t + d },
       [CEvent.updateEv a b, CEvent.updateEv b a,
        CEvent.updateEv b a, CEvent.updateEv a b]) := by
  have hstat2 : (b.static && a.static) = false := by rw [Bool.and_comm]; exact hstat
  have hba : b ≠ a := hab.symm
  have hstatP : ¬(a.static = true ∧ b.static = true) := by
    intro hcon
    rw [hcon.1, hcon.2] at hstat
    simp at hstat
  have hstatP2 : ¬(b.static = true ∧ a.static = true) := fun h => hstatP ⟨h.2, h.1⟩
  simp [CollisionManager.update, CollisionManager.innerStep, CollisionManager.touchPair,
    CollisionManager.pairMatch, hab, hba, hstat, hstat2, hstatP, hstatP2, hia, hib]

/-- One manager tick for the pair [a, b] with a stale live record and shapes
no longer intersecting: the record is removed, one exit callback per
component fires and the two HIGH exit messages are posted. -/
theorem update_two_exit (a b : CComp) (sh : CComp → Shape2D) (t t3 d : ℚ)
    (hab : a ≠ b)
    (hstat : (a.static && b.static) = false)
    (hia : Shape2D.intersects (sh a) (sh b) = false)
    (hib : Shape2D.intersects (sh b) (sh a) = false)
    (hstale : t3 ≠ t + d) :
    CollisionManager.update sh
        { collisionComponents := [a, b], collisionData := [⟨t3, a, b⟩],
          totalTime := t } d =
      ({ collisionComponents := [a, b], collisionData := [], totalTime := t + d },
       [CEvent.exitEv a b, CEvent.exitEv b a,
        CEvent.postMsg ("COLLISION_EXIT: " ++ a.name) MessagePriority.HIGH,
        CEvent.postMsg ("COLLISION_EXIT: " ++ b.name) MessagePriority.HIGH]) := by
  have hstat2 : (b.static && a.static) = false := by rw [Bool.and_comm]; exact hstat
  have hba : b ≠ a := hab.symm
  have hstatP : ¬(a.static = true ∧ b.static = true) := by
    intro hcon
    rw [hcon.1, hcon.2] at hstat
    simp at hstat
  have hstatP2 : ¬(b.static = true ∧ a.static = true) := fun h => hstatP ⟨h.2, h.1⟩
  simp [CollisionManager.update, CollisionManager.innerStep, CollisionManager.touchPair,
    CollisionManager.pairMatch, CollisionManager.spliceOut, hab, hba, hstat, hstat2,
    hstatP, hstatP2, hia, hib, hstale]

/-- C1: collision pair lifecycle for a registered pair [a, b] of distinct
components, not both static, over four ticks whose shapes do not intersect,
intersect, intersect, and do not intersect (the last tick with a nonzero
delta). Tick 1 fires nothing. Tick 2 fires exactly one entry callback per
component and posts exactly one HIGH-priority COLLISION_ENTRY message per
component name (the reverse-order visit of the same pair inside the
quadratic scan refreshes the fresh record and fires update callbacks, but no
second entry). Tick 3 fires only update callbacks, no entry. Tick 4 fires
exactly one exit callback per component, posts one HIGH-priority
COLLISION_EXIT message per component name, and destroys the record. Each
trace is computed exactly, so the exactly-once counts are immediate. -/
theorem c1_collision_pair_lifecycle (a b : CComp)
    (sh1 sh2 sh3 sh4 : CComp → Shape2D) (t0 d1 d2 d3 d4 : ℚ)
    (hab : a ≠ b)
    (hstat : (a.static && b.static) = false)
    (h1a : Shape2D.intersects (sh1 a) (sh1 b) = false)
    (h1b : Shape2D.intersects (sh1 b) (sh1 a) = false)
    (h2a : Shape2D.intersects (sh2 a) (sh2 b) = true)
    (h2b : Shape2D.intersects (sh2 b) (sh2 a) = true)
    (h3a : Shape2D.intersects (sh3 a) (sh3 b) = true)
    (h3b : Shape2D.intersects (sh3 b) (sh3 a) = true)
    (h4a : Shape2D.intersects (sh4 a) (sh4 b) = false)
    (h4b : Shape2D.intersects (sh4 b) (sh4 a) = false)
    (hd4 : d4 ≠ 0) :
    (CollisionManager.update sh1
        { collisionComponents := [a, b], collisionData := [], totalTime := t0 }
        d1).2 = [] ∧
    (CollisionManager.update sh2
        (CollisionManager.update sh1
          { collisionComponents := [a, b], collisionData := [], totalTime := t0 }
          d1).1 d2).2 =
      [CEvent.entryEv a b, CEvent.entryEv b a,
       CEvent.postMsg ("COLLISION_ENTRY: " ++ a.name) MessagePriority.HIGH,
       CEvent.postMsg ("COLLISION_ENTRY: " ++ b.name) MessagePriority.HIGH,
       CEvent.updateEv b a, CEvent.updateEv a b] ∧
    (CollisionManager.update sh3
        (CollisionManager.update sh2
          (CollisionManager.update sh1
            { collisionComponents := [a, b], collisionData := [], totalTime := t0 }
            d1).1 d2).1 d3).2 =
      [CEvent.updateEv a b, CEvent.updateEv b a,
       CEvent.updateEv b a, CEvent.updateEv a b] ∧
    (CollisionManager.update sh4
        (CollisionManager.update sh3
          (CollisionManager.update sh2
            (CollisionManager.update sh1
              { collisionComponents := [a, b], collisionData := [], totalTime := t0 }
              d1).1 d2).1 d3).1 d4).2 =
      [CEvent.exitEv a b, CEvent.exitEv b a,
       CEvent.postMsg ("COLLISION_EXIT: " ++ a.name) MessagePriority.HIGH,
       CEvent.postMsg ("COLLISION_EXIT: " ++ b.name) MessagePriority.HIGH] ∧
    (CollisionManager.update sh4
        (CollisionManager.update sh3
          (CollisionManager.update sh2
            (CollisionManager.update sh1
              { collisionComponents := [a, b], collisionData := [], totalTime := t0 }
              d1).1 d2).1 d3).1 d4).1.collisionData = [] := by
  have e1 := update_two_apart a b sh1 t0 d1 hab hstat h1a h1b
  have e2 := update_two_entry a b sh2 (t0 + d1) d2 hab hstat h2a h2b
  have e3 := update_two_continue a b sh3 (t0 + d1 + d2) (t0 + d1 + d2) d3 hab hstat
    h3a h3b
  have e4 := update_two_exit a b sh4 (t0 + d1 + d2 + d3) (t0 + d1 + d2 + d3) d4 hab
    hstat h4a h4b (fun hcon => hd4 (by linarith))
  refine ⟨?_, ?_, ?_, ?_, ?_⟩ <;> simp only [e1, e2, e3, e4]

/-- Witness for C1 with the two concrete sample components, far apart on
ticks 1 and 4 and overlapping on ticks 2 and 3, all deltas 1. -/
theorem c1_collision_pair_lifecycle_witness :
    (CollisionManager.update shapesOverlap
        (CollisionManager.update shapesApart
          { collisionComponents := [sampleA, sampleB], collisionData := [],
            totalTime := 0 } 1).1 1).2 =
      [CEvent.entryEv sampleA sampleB, CEvent.entryEv sampleB sampleA,
       CEvent.postMsg ("COLLISION_ENTRY: " ++ sampleA.name) MessagePriority.HIGH,
       CEvent.postMsg ("COLLISION_ENTRY: " ++ sampleB.name) MessagePriority.HIGH,
       CEvent.updateEv sampleB sampleA, CEvent.updateEv sampleA sampleB] ∧
    (CollisionManager.update shapesApart
        (CollisionManager.update shapesOverlap
          (CollisionManager.update shapesOverlap
            (CollisionManager.update shapesApart
              { collisionComponents := [sampleA, sampleB], collisionData := [],
                totalTime := 0 } 1).1 1).1 1).1 1).1.collisionData = [] := by
  have hfarA : Shape2D.intersects (shapesApart sampleA) (shapesApart sampleB) = false := by
    norm_num [shapesApart, sampleA, sampleB, Shape2D.intersects,
      Rectangle2D.intersectsRect, Rectangle2D.pointInShape]
  have hfarB : Shape2D.intersects (shapesApart sampleB) (shapesApart sampleA) = false := by
    norm_num [shapesApart, sampleA, sampleB, Shape2D.intersects,
      Rectangle2D.intersectsRect, Rectangle2D.pointInShape]
  have hnearA : Shape2D.intersects (shapesOverlap sampleA) (shapesOverlap sampleB) = true := by
    norm_num [shapesOverlap, sampleA, sampleB, Shape2D.intersects,
      Rectangle2D.intersectsRect, Rectangle2D.pointInShape]
  have hnearB : Shape2D.intersects (shapesOverlap sampleB) (shapesOverlap sampleA) = true := by
    norm_num [shapesOverlap, sampleA, sampleB, Shape2D.intersects,
      Rectangle2D.intersectsRect, Rectangle2D.pointInShape]
  have h := c1_collision_pair_lifecycle sampleA sampleB
    shapesApart shapesOverlap shapesOverlap shapesApart 0 1 1 1 1
    (by decide) (by decide) hfarA hfarB hnearA hnearB hnearA hnearB hfarA hfarB
    (by norm_num)
  exact ⟨h.2.1, h.2.2.2.2⟩

/-- A successful inner existence scan rewrites only the timestamp of the hit
record: the component pairs of the record list are unchanged. -/
theorem touchPair_some_map (tt : ℚ) (c o : CComp) :
    ∀ (cd cd' : List CollisionData),
      CollisionManager.touchPair tt c o cd = some cd' →
      cd'.map (fun d => (d.a, d.b)) = cd.map (fun d => (d.a, d.b))
  | [], cd', h => by simp [CollisionManager.touchPair] at h
  | d :: rest, cd', h => by
      rw [CollisionManager.touchPair] at h
      by_cases hm : CollisionManager.pairMatch d c o
      · rw [if_pos hm] at h
        obtain rfl : ({ d with time := tt } :: rest) = cd' := by
          injection h
        simp
      · rw [if_neg hm] at h
        cases hrec : CollisionManager.touchPair tt c o rest with
        | none => rw [hrec] at h; simp at h
        | some r =>
            rw [hrec] at h
            have h2 : some (d :: r) = some cd' := h
            obtain rfl : d :: r = cd' := by injection h2
            simp [touchPair_some_map tt c o rest r hrec]

/-- A failed inner existence scan means no record in the list holds the
pair. -/
theorem touchPair_none_forall (tt : ℚ) (c o : CComp) :
    ∀ (cd : List CollisionData),
      CollisionManager.touchPair tt c o cd = none →
      ∀ d ∈ cd, ¬ CollisionManager.pairMatch d c o
  | [], _, d, hd => by simp at hd
  | d0 :: rest, h, d, hd => by
      rw [CollisionManager.touchPair] at h
      by_cases hm : CollisionManager.pairMatch d0 c o
      · rw [if_pos hm] at h; simp at h
      · rw [if_neg hm] at h
        cases hrec : CollisionManager.touchPair tt c o rest with
        | some r => rw [hrec] at h; simp at h
        | none =>
            cases hd with
            | head => exact hm
            | tail _ hmem => exact touchPair_none_forall tt c o rest hrec d hmem

/-- Pair uniqueness only depends on the component pairs of the records, not
on their timestamps. -/
theorem pairUnique_iff_map (cd : List CollisionData) :
    PairUnique cd ↔
      (cd.map (fun d => (d.a, d.b))).Pairwise
        (fun p q => ¬ ((p.1 = q.1 ∧ p.2 = q.2) ∨ (p.1 = q.2 ∧ p.2 = q.1))) := by
  unfold PairUnique samePair CollisionManager.pairMatch
  rw [List.pairwise_map]

/-- One inner-loop iteration preserves pair uniqueness of the record list: a
refresh keeps all pairs, and a fresh record is created only after the scan
found no record with that pair. -/
theorem pairUnique_innerStep (tt : ℚ) (c o : CComp) (sa sb : Shape2D)
    (st : List CollisionData × List CEvent) (h : PairUnique st.1) :
    PairUnique (CollisionManager.innerStep tt c o sa sb st).1 := by
  unfold CollisionManager.innerStep
  split
  · exact h
  split
  · exact h
  split
  · cases htp : CollisionManager.touchPair tt c o st.1 with
    | some cd' =>
        simp only [htp]
        rw [pairUnique_iff_map, touchPair_some_map tt c o st.1 cd' htp,
          ← pairUnique_iff_map]
        exact h
    | none =>
        simp only [htp]
        have hall := touchPair_none_forall tt c o st.1 htp
        unfold PairUnique at h ⊢
        rw [List.pairwise_append]
        refine ⟨h, by simp, ?_⟩
        intro x hx y hy
        simp only [List.mem_singleton] at hy
        subst hy
        intro hsp
        exact hall x hx hsp
  · exact h

/-- A left fold preserves any invariant its step preserves. -/
theorem foldl_preserves {α : Type _} {β : Type _} (P : α → Prop) (f : α → β → α)
    (hf : ∀ a b, P a → P (f a b)) :
    ∀ (l : List β) (a : α), P a → P (l.foldl f a)
  | [], _, h => h
  | b :: rest, a, h => foldl_preserves P f hf rest (f a b) (hf a b h)

/-- The stale-record removal step only ever removes records. -/
theorem spliceOut_sublist (cd : List CollisionData) (data : CollisionData) :
    (CollisionManager.spliceOut cd data).Sublist cd := by
  unfold CollisionManager.spliceOut
  split
  · exact List.erase_sublist _ _
  · exact List.dropLast_sublist _

/-- One full manager tick preserves pair uniqueness of the record list. -/
theorem pairUnique_update (sh : CComp → Shape2D) (s : CollisionManagerState) (t : ℚ)
    (h : PairUnique s.collisionData) :
    PairUnique (CollisionManager.update sh s t).1.collisionData := by
  unfold CollisionManager.update
  dsimp only
  apply foldl_preserves (fun (st : List CollisionData × List CEvent) => PairUnique st.1)
  · intro a data ha
    exact List.Pairwise.sublist (spliceOut_sublist a.1 data) ha
  · apply foldl_preserves (fun (st : List CollisionData × List CEvent) => PairUnique st.1)
    · intro a comp ha
      apply foldl_preserves (fun (st : List CollisionData × List CEvent) => PairUnique st.1)
      · intro a2 other ha2
        exact pairUnique_innerStep _ comp other _ _ a2 ha2
      · exact ha
    · exact h

/-- C2: in every state of the collision engine reachable by any sequence of
register, unregister and update calls, the stored collision-data list holds
at most one record per unordered component pair, although the quadratic scan
visits each pair in both orders. -/
theorem c2_at_most_one_record_per_unordered_pair (s : CollisionManagerState)
    (h : CollisionManager.Reachable s) : PairUnique s.collisionData := by
  induction h with
  | init => exact List.Pairwise.nil
  | register s c hr ih => simpa [CollisionManager.registerCollisionComponent] using ih
  | unregister s c hr ih =>
      simpa [CollisionManager.unRegisterCollisionComponent] using ih
  | tick s sh t hr ih => exact pairUnique_update sh s t ih

/-- Witness for C2: the state reached by registering the two sample
components and running one overlapping tick (which creates a record through
both scan orders) still has pairwise-unique records. -/
theorem c2_at_most_one_record_per_unordered_pair_witness :
    PairUnique
      (CollisionManager.update shapesOverlap
        (CollisionManager.registerCollisionComponent
          (CollisionManager.registerCollisionComponent {} sampleA) sampleB)
        1).1.collisionData :=
  c2_at_most_one_record_per_unordered_pair _
    (CollisionManager.Reachable.tick _ shapesOverlap 1
      (CollisionManager.Reachable.register _ sampleB
        (CollisionManager.Reachable.register _ sampleA
          CollisionManager.Reachable.init)))

/-- A collision component description whose JSON omits the static field keeps
the field initializer: the parsed data is static. -/
theorem setFromJson_static_default (j : CollisionJson) (d : CollisionComponentData)
    (hj : j.static = none)
    (h : CollisionComponentData.setFromJson j = Except.ok d) :
    d.static = true := by
  unfold CollisionComponentData.setFromJson at h
  cases hsh : j.shape with
  | none => simp [hj, hsh] at h
  | some sj =>
      cases hty : sj.type with
      | none => simp [hj, hsh, hty] at h
      | some ty =>
          simp only [hj, hsh, hty] at h
          by_cases hr : jsToLowerCase ty = "rectangle"
          · rw [if_pos hr] at h
            cases hrect : Rectangle2D.setFromJson sj with
            | error e => rw [hrect] at h; simp [Except.map] at h
            | ok r =>
                rw [hrect] at h
                simp only [Except.map] at h
                injection h with h
                rw [← h]
          · rw [if_neg hr] at h
            by_cases hc : jsToLowerCase ty = "circle"
            · rw [if_pos hc] at h
              cases hcirc : Circle2D.setFromJson sj with
              | error e => rw [hcirc] at h; simp [Except.map] at h
              | ok r =>
                  rw [hcirc] at h
                  simp only [Except.map] at h
                  injection h with h
                  rw [← h]
            · rw [if_neg hc] at h
              simp at h

/-- Removing records can never create a pair record. -/
theorem not_hasPair_sublist (cd1 cd2 : List CollisionData) (a b : CComp)
    (hsub : cd1.Sublist cd2) (hn : ¬ hasPair cd2 a b) : ¬ hasPair cd1 a b := by
  rintro ⟨d, hd, hp⟩
  exact hn ⟨d, hsub.subset hd, hp⟩

/-- A record list with the same component pairs holds the same pairs. -/
theorem hasPair_of_map_eq (cd cd' : List CollisionData) (a b : CComp)
    (hmap : cd'.map (fun d => (d.a, d.b)) = cd.map (fun d => (d.a, d.b)))
    (h : hasPair cd' a b) : hasPair cd a b := by
  obtain ⟨d, hd, hp⟩ := h
  have hmem : (d.a, d.b) ∈ cd.map (fun d => (d.a, d.b)) := by
    rw [← hmap]
    exact List.mem_map_of_mem _ hd
  obtain ⟨d2, hd2, heq⟩ := List.mem_map.mp hmem
  refine ⟨d2, hd2, ?_⟩
  unfold CollisionManager.pairMatch at hp ⊢
  obtain ⟨ha2, hb2⟩ := Prod.mk.injEq .. ▸ heq
  rw [ha2, hb2]
  exact hp

/-- When both a and b are static, no inner-loop iteration — for any ordered
component pair — can create an (a, b) record or fire an entry, update or
exit event between a and b: the (a, b) visits are skipped by the static
check, and visits of other pairs only ever concern their own pair. -/
theorem innerStep_static_pair (a b : CComp)
    (ha : a.static = true) (hb : b.static = true)
    (tt : ℚ) (c o : CComp) (sa sb : Shape2D)
    (st : List CollisionData × List CEvent)
    (h1 : ¬ hasPair st.1 a b) (h2 : ∀ e ∈ st.2, ¬ touchesPair e a b) :
    ¬ hasPair (CollisionManager.innerStep tt c o sa sb st).1 a b ∧
    ∀ e ∈ (CollisionManager.innerStep tt c o sa sb st).2, ¬ touchesPair e a b := by
  unfold CollisionManager.innerStep
  split
  · exact ⟨h1, h2⟩
  split
  · exact ⟨h1, h2⟩
  next hstatic =>
  split
  · have hpair : ¬ ((c = a ∧ o = b) ∨ (c = b ∧ o = a)) := by
      rintro (⟨rfl, rfl⟩ | ⟨rfl, rfl⟩) <;> exact hstatic (by simp [ha, hb])
    cases htp : CollisionManager.touchPair tt c o st.1 with
    | some cd' =>
        refine ⟨?_, ?_⟩
        · intro hhp
          exact h1 (hasPair_of_map_eq st.1 cd' a b
            (touchPair_some_map tt c o st.1 cd' htp) hhp)
        · intro e he
          rcases List.mem_append.mp he with hold | hnew
          · exact h2 e hold
          · simp only [List.mem_cons] at hnew
            rcases hnew with rfl | rfl | hfalse
            · intro ht
              exact hpair (by simpa [touchesPair] using ht)
            · intro ht
              apply hpair
              rcases (by simpa [touchesPair] using ht :
                  (o = a ∧ c = b) ∨ (o = b ∧ c = a)) with ⟨h3, h4⟩ | ⟨h3, h4⟩
              · exact Or.inr ⟨h4, h3⟩
              · exact Or.inl ⟨h4, h3⟩
            · simp at hfalse
    | none =>
        refine ⟨?_, ?_⟩
        · intro hhp
          rcases hhp with ⟨d, hd, hp⟩
          rcases List.mem_append.mp hd with hold | hnew
          · exact h1 ⟨d, hold, hp⟩
          · simp only [List.mem_singleton] at hnew
            subst hnew
            exact hpair (by simpa [CollisionManager.pairMatch] using hp)
        · intro e he
          rcases List.mem_append.mp he with hold | hnew
          · exact h2 e hold
          · simp only [List.mem_cons] at hnew
            rcases hnew with rfl | rfl | rfl | rfl | hfalse
            · intro ht
              exact hpair (by simpa [touchesPair] using ht)
            · intro ht
              apply hpair
              rcases (by simpa [touchesPair] using ht :
                  (o = a ∧ c = b) ∨ (o = b ∧ c = a)) with ⟨h3, h4⟩ | ⟨h3, h4⟩
              · exact Or.inr ⟨h4, h3⟩
              · exact Or.inl ⟨h4, h3⟩
            · simp [touchesPair]
            · simp [touchesPair]
            · simp at hfalse
  · exact ⟨h1, h2⟩

/-- The stale-record removal loop fires exit events only for records it was
given, so when none of those concern the pair (a, b), no (a, b) exit fires
and no (a, b) record appears. -/
theorem cleanup_preserves_pair (a b : CComp) :
    ∀ (rd : List CollisionData) (acc : List CollisionData × List CEvent),
      (∀ d ∈ rd, ¬ CollisionManager.pairMatch d a b) →
      ¬ hasPair acc.1 a b →
      (∀ e ∈ acc.2, ¬ touchesPair e a b) →
      ¬ hasPair
          (rd.foldl
            (fun st data =>
              (CollisionManager.spliceOut st.1 data,
               st.2 ++
                 [CEvent.exitEv data.a data.b, CEvent.exitEv data.b data.a,
                  CEvent.postMsg ("COLLISION_EXIT: " ++ data.a.name)
                    MessagePriority.HIGH,
                  CEvent.postMsg ("COLLISION_EXIT: " ++ data.b.name)
                    MessagePriority.HIGH]))
            acc).1 a b ∧
      ∀ e ∈ (rd.foldl
            (fun st data =>
              (CollisionManager.spliceOut st.1 data,
               st.2 ++
                 [CEvent.exitEv data.a data.b, CEvent.exitEv data.b data.a,
                  CEvent.postMsg ("COLLISION_EXIT: " ++ data.a.name)
                    MessagePriority.HIGH,
                  CEvent.postMsg ("COLLISION_EXIT: " ++ data.b.name)
                    MessagePriority.HIGH]))
            acc).2, ¬ touchesPair e a b
  | [], acc, _, h1, h2 => ⟨h1, h2⟩
  | d0 :: rest, acc, hrd, h1, h2 => by
      simp only [List.foldl_cons]
      apply cleanup_preserves_pair a b rest
      · intro d hd
        exact hrd d (List.mem_cons_of_mem d0 hd)
      · exact not_hasPair_sublist _ _ a b (spliceOut_sublist acc.1 d0) h1
      · intro e he
        rcases List.mem_append.mp he with hold | hnew
        · exact h2 e hold
        · have hd0 := hrd d0 (List.mem_cons_self d0 rest)
          simp only [List.mem_cons] at hnew
          rcases hnew with rfl | rfl | rfl | rfl | hfalse
          · intro ht
            exact hd0 (by simpa [touchesPair, CollisionManager.pairMatch] using ht)
          · intro ht
            apply hd0
            rcases (by simpa [touchesPair] using ht :
                (d0.b = a ∧ d0.a = b) ∨ (d0.b = b ∧ d0.a = a)) with ⟨h3, h4⟩ | ⟨h3, h4⟩
            · exact Or.inr ⟨h4, h3⟩
            · exact Or.inl ⟨h4, h3⟩
          · simp [touchesPair]
          · simp [touchesPair]
          · simp at hfalse

/-- One full manager tick neither creates an (a, b) record nor fires any
event between the two static components a and b, provided no (a, b) record
was live. -/
theorem update_static_pair_skip (a b : CComp)
    (ha : a.static = true) (hb : b.static = true)
    (sh : CComp → Shape2D) (s : CollisionManagerState) (t : ℚ)
    (hnp : ¬ hasPair s.collisionData a b) :
    ¬ hasPair (CollisionManager.update sh s t).1.collisionData a b ∧
    ∀ e ∈ (CollisionManager.update sh s t).2, ¬ touchesPair e a b := by
  unfold CollisionManager.update
  dsimp only
  have hscan := foldl_preserves
    (fun (st : List CollisionData × List CEvent) =>
      ¬ hasPair st.1 a b ∧ ∀ e ∈ st.2, ¬ touchesPair e a b)
    (fun st comp => s.collisionComponents.foldl
      (fun st2 other =>
        CollisionManager.innerStep (s.totalTime + t) comp other (sh comp) (sh other)
          st2) st)
    (fun st comp hst => foldl_preserves
      (fun (st2 : List CollisionData × List CEvent) =>
        ¬ hasPair st2.1 a b ∧ ∀ e ∈ st2.2, ¬ touchesPair e a b)
      (fun st2 other =>
        CollisionManager.innerStep (s.totalTime + t) comp other (sh comp) (sh other)
          st2)
      (fun st2 other hst2 =>
        innerStep_static_pair a b ha hb (s.totalTime + t) comp other (sh comp)
          (sh other) st2 hst2.1 hst2.2)
      s.collisionComponents st hst)
    s.collisionComponents (s.collisionData, []) ⟨hnp, by simp⟩
  apply cleanup_preserves_pair a b
  · intro d hd
    intro hp
    exact hscan.1 ⟨d, (List.mem_filter.mp hd).1, hp⟩
  · exact hscan.1
  · exact hscan.2

/-- Any sequence of manager ticks preserves the absence of an (a, b) record
and fires no event between the static components a and b. -/
theorem runUpdates_static_pair_skip (a b : CComp)
    (ha : a.static = true) (hb : b.static = true) :
    ∀ (steps : List ((CComp → Shape2D) × ℚ))
      (acc : CollisionManagerState × List CEvent),
      ¬ hasPair acc.1.collisionData a b →
      (∀ e ∈ acc.2, ¬ touchesPair e a b) →
      ¬ hasPair
          (steps.foldl
            (fun acc step =>
              ((CollisionManager.update step.1 acc.1 step.2).1,
               acc.2 ++ (CollisionManager.update step.1 acc.1 step.2).2))
            acc).1.collisionData a b ∧
      ∀ e ∈ (steps.foldl
            (fun acc step =>
              ((CollisionManager.update step.1 acc.1 step.2).1,
               acc.2 ++ (CollisionManager.update step.1 acc.1 step.2).2))
            acc).2, ¬ touchesPair e a b
  | [], acc, h1, h2 => ⟨h1, h2⟩
  | step :: rest, acc, h1, h2 => by
      simp only [List.foldl_cons]
      apply runUpdates_static_pair_skip a b ha hb rest
      · exact (update_static_pair_skip a b ha hb step.1 acc.1 step.2 h1).1
      · intro e he
        rcases List.mem_append.mp he with hold | hnew
        · exact h2 e hold
        · exact (update_static_pair_skip a b ha hb step.1 acc.1 step.2 h1).2 e hnew

/-- C10: a collision component whose JSON configuration omits the static
field is built static (the data field initializer is true); and for a pair
of components both built that way, the pairwise scan skips the pair
entirely: over any sequence of manager ticks from a state with no record for
the pair, no record for the pair ever exists and no entry, update or exit
event between the two is ever fired. -/
theorem c10_static_default_pair_never_fires
    (j1 j2 : CollisionJson) (d1 d2 : CollisionComponentData) (id1 id2 : Nat)
    (h1 : CollisionComponentData.setFromJson j1 = Except.ok d1)
    (h2 : CollisionComponentData.setFromJson j2 = Except.ok d2)
    (hs1 : j1.static = none) (hs2 : j2.static = none)
    (s : CollisionManagerState)
    (hnp : ¬ hasPair s.collisionData (mkCollisionComponent id1 d1).1
      (mkCollisionComponent id2 d2).1)
    (steps : List ((CComp → Shape2D) × ℚ)) :
    (mkCollisionComponent id1 d1).1.static = true ∧
    (mkCollisionComponent id2 d2).1.static = true ∧
    ¬ hasPair (CollisionManager.runUpdates steps s).1.collisionData
        (mkCollisionComponent id1 d1).1 (mkCollisionComponent id2 d2).1 ∧
    ∀ e ∈ (CollisionManager.runUpdates steps s).2,
      ¬ touchesPair e (mkCollisionComponent id1 d1).1
        (mkCollisionComponent id2 d2).1 := by
  have ha : (mkCollisionComponent id1 d1).1.static = true := by
    simp [mkCollisionComponent, setFromJson_static_default j1 d1 hs1 h1]
  have hb : (mkCollisionComponent id2 d2).1.static = true := by
    simp [mkCollisionComponent, setFromJson_static_default j2 d2 hs2 h2]
  have hrw : CollisionManager.runUpdates steps s =
      steps.foldl
        (fun acc step =>
          ((CollisionManager.update step.1 acc.1 step.2).1,
           acc.2 ++ (CollisionManager.update step.1 acc.1 step.2).2))
        (s, []) := rfl
  have hrun := runUpdates_static_pair_skip _ _ ha hb steps (s, []) hnp (by simp)
  refine ⟨ha, hb, ?_, ?_⟩
  · rw [hrw]
    exact hrun.1
  · rw [hrw]
    exact hrun.2

/-- Witness for C10: two overlapping rectangle components built from JSON
without a static field, registered together; one overlapping tick produces
no record for the pair. -/
theorem c10_static_default_pair_never_fires_witness :
    (mkCollisionComponent 0
      { name := none,
        shape := Shape2D.rect
          { position := ⟨0, 0⟩, origin := ⟨0, 0⟩, width := 2, height := 2 },
        static := true }).1.static = true ∧
    ¬ hasPair
        (CollisionManager.runUpdates [(shapesOverlap, 1)]
          { collisionComponents :=
              [(mkCollisionComponent 0
                { name := none,
                  shape := Shape2D.rect
                    { position := ⟨0, 0⟩, origin := ⟨0, 0⟩, width := 2, height := 2 },
                  static := true }).1,
               (mkCollisionComponent 1
                { name := none,
                  shape := Shape2D.rect
                    { position := ⟨1, 1⟩, origin := ⟨0, 0⟩, width := 2, height := 2 },
                  static := true }).1],
            collisionData := [], totalTime := 0 }).1.collisionData
        (mkCollisionComponent 0
          { name := none,
            shape := Shape2D.rect
              { position := ⟨0, 0⟩, origin := ⟨0, 0⟩, width := 2, height := 2 },
            static := true }).1
        (mkCollisionComponent 1
          { name := none,
            shape := Shape2D.rect
              { position := ⟨1, 1⟩, origin := ⟨0, 0⟩, width := 2, height := 2 },
            static := true }).1 := by
  have h := c10_static_default_pair_never_fires
    { name := none, static := none,
      shape := some { type := some "rectangle", width := some 2, height := some 2 } }
    { name := none, static := none,
      shape :=
        some { type := some "rectangle", position := some ⟨1, 1⟩, width := some 2, height := some 2 } }
    { name := none,
      shape := Shape2D.rect
        { position := ⟨0, 0⟩, origin := ⟨0, 0⟩, width := 2, height := 2 },
      static := true }
    { name := none,
      shape := Shape2D.rect
        { position := ⟨1, 1⟩, origin := ⟨0, 0⟩, width := 2, height := 2 },
      static := true }
    0 1 rfl rfl rfl rfl
    { collisionComponents :=
        [(mkCollisionComponent 0
          { name := none,
            shape := Shape2D.rect
              { position := ⟨0, 0⟩, origin := ⟨0, 0⟩, width := 2, height := 2 },
            static := true }).1,
         (mkCollisionComponent 1
          { name := none,
            shape := Shape2D.rect
              { position := ⟨1, 1⟩, origin := ⟨0, 0⟩, width := 2, height := 2 },
            static := true }).1],
      collisionData := [], totalTime := 0 }
    (by simp [hasPair]) [(shapesOverlap, 1)]
  exact ⟨h.1, h.2.2.1⟩
